import Mathlib

/-!
Shallow embedding of the density-heatmap chart component
(`src/components/Chart/Chart.tsx`): the occupancy-grid aggregation
(`getGrid`), row-major flattening (`flattenGrid`), the layer composition
handed to the plotting library (the `marks` array), the slider state and
its change handlers, and the static emotion annotation catalog.

Numbers are modelled as `ℚ` (the source works with JS numbers used as
real values), grids as `List (List ℕ)` exactly mirroring the
array-of-arrays the source builds.  An out-of-range grid access
(`grid[yIndex][xIndex]` where an index falls outside `0..99`) is not a
normal update in JS — reading a missing row yields `undefined` and the
subsequent access throws, while writing past the end of a row corrupts
it — so the embedding makes the cell update fallible (`Option`), with
`none` for any out-of-range index.
-/

namespace HeatmapChart

/-- Scope of a sample: the source enum with values local and global. -/
inductive Scope where
  | LOCAL : Scope
  | GLOBAL : Scope
deriving DecidableEq, Repr

/-- SessionData, the source type: fields x, y (numbers) and scope. -/
structure SessionData where
  x : ℚ
  y : ℚ
  scope : Scope
deriving DecidableEq, Repr

/-- Emotion, the source type: a name, an optional color triple, an
optional hsl triple and a position. -/
structure Emotion where
  name : String
  color : Option (ℕ × ℕ × ℕ)
  hsl : Option (ℚ × ℚ × ℚ)
  position : ℚ × ℚ
deriving DecidableEq, Repr

/-- The static `emotions` catalog (9 entries, fixed at module load). -/
def emotions : List Emotion :=
  [⟨"joy", some (255, 248, 77), none, (0.97, 0.56)⟩,
   ⟨"excited", some (242, 136, 38), none, (0.845, 0.86)⟩,
   ⟨"alarmed", some (210, 37, 25), some (4, 0.79, 0.46), (0.46, 0.945)⟩,
   ⟨"annoyed", some (182, 18, 67), some (342, 0.82, 0.39), (0.28, 0.83)⟩,
   ⟨"anxious", some (239, 92, 180), none, (0.14, 0.105)⟩,
   ⟨"bored", some (99, 26, 192), none, (0.33, 0.105)⟩,
   ⟨"serious", some (43, 48, 170), none, (0.61, 0.17)⟩,
   ⟨"relaxed", some (26, 179, 192), none, (0.855, 0.17)⟩,
   ⟨"neutral", some (128, 128, 128), none, (0.5, 0.5)⟩]

/-- Source function toRgb: destructures the triple into r, g, b and
renders the string rgb(r, g, b). -/
def toRgb (c : ℕ × ℕ × ℕ) : String :=
  match c with
  | (r, g, b) => s!"rgb({r}, {g}, {b})"

/-- The color the annotation dot layer computes for an entry:
`toRgb(d.color!)`.  The non-null assertion `!` is modelled by `Option.map`:
the access is well-defined exactly when the result `isSome`. -/
def emotionFill (e : Emotion) : Option String :=
  e.color.map toRgb

/-- Source expression building the all-zero 100×100 grid:
Array.from of length 100 of Array.from of length 100 of zeros. -/
def emptyGrid : List (List ℕ) :=
  List.replicate 100 (List.replicate 100 0)

/-- Column index of a point: Math.floor(d.x * 100). -/
def xIndex (d : SessionData) : ℤ := ⌊d.x * 100⌋

/-- Row index of a point: Math.floor(d.y * 100). -/
def yIndex (d : SessionData) : ℤ := ⌊d.y * 100⌋

/-- One update `grid[yIndex][xIndex] += 1` of the `getGrid` loop body.
`none` models the access with an index outside the actual extent of the
array-of-arrays (JS: a `TypeError` for a missing row, a corrupting
write past the end of a row). -/
def incGrid (g : List (List ℕ)) (r c : ℤ) : Option (List (List ℕ)) :=
  if 0 ≤ r then
    match g[r.toNat]? with
    | none => none
    | some row =>
      if 0 ≤ c then
        match row[c.toNat]? with
        | none => none
        | some v => some (g.set r.toNat (row.set c.toNat (v + 1)))
      else none
  else none

/-- One step of the `getGrid` forEach loop, on the accumulated grid. -/
def gridStep (acc : Option (List (List ℕ))) (d : SessionData) :
    Option (List (List ℕ)) :=
  acc.bind fun g => incGrid g (yIndex d) (xIndex d)

/-- Source function getGrid: start from the all-zero 100×100 grid and
fold the
increment `grid[yIndex][xIndex] += 1` over the data points in order. -/
def getGrid (data : List SessionData) : Option (List (List ℕ)) :=
  data.foldl gridStep (some emptyGrid)

/-- Source function flattenGrid: each row is appended (push with
spread), in order, to an initially empty flat array. -/
def flattenGrid (grid : List (List ℕ)) : List ℕ :=
  grid.foldl (fun acc row => acc ++ row) []

/-- Reassembling a flat sequence into rows of length `R` (the inverse
direction of the round-trip property; not itself in the source). -/
def reshape (R : ℕ) (l : List ℕ) : List (List ℕ) :=
  if h : R = 0 ∨ l = [] then []
  else l.take R :: reshape R (l.drop R)
termination_by l.length
decreasing_by
  simp only [not_or] at h
  have h1 : 0 < R := Nat.pos_of_ne_zero h.1
  have h2 : 0 < l.length := List.length_pos.mpr h.2
  simp only [List.length_drop]
  omega

/-- The four pieces of visual state held by the component:
`displayPoints` (initially `false`), `opacity` (initially `5`),
`bandwidth` (initially `20`), `skew` (initially `0`). -/
structure ChartState where
  displayPoints : Bool
  opacity : ℚ
  bandwidth : ℚ
  skew : ℚ
deriving DecidableEq, Repr

/-- The `useState` initial values: `false`, `5`, `20`, `0`. -/
def initialState : ChartState := ⟨false, 5, 20, 0⟩

/-- Source handler togglePoints: flips `displayPoints`. -/
def togglePoints (s : ChartState) : ChartState :=
  ⟨!s.displayPoints, s.opacity, s.bandwidth, s.skew⟩

/-- Source handler handleOpacityChange: stores the parsed value as-is. -/
def handleOpacityChange (v : ℚ) (s : ChartState) : ChartState :=
  ⟨s.displayPoints, v, s.bandwidth, s.skew⟩

/-- Source handler handleBandwidthChange: stores the parsed value as-is. -/
def handleBandwidthChange (v : ℚ) (s : ChartState) : ChartState :=
  ⟨s.displayPoints, s.opacity, v, s.skew⟩

/-- Source handler handleSkewChange: stores the parsed value as-is. -/
def handleSkewChange (v : ℚ) (s : ChartState) : ChartState :=
  ⟨s.displayPoints, s.opacity, s.bandwidth, v⟩

/-- The option bag of a `Plot.density` mark, restricted to the options
the source sets. -/
structure DensityOptions where
  weight : Option ℚ
  bandwidth : ℚ
  opacity : Option ℚ
  fill : Option String
  fillOpacity : Option ℚ
  stroke : Option String
  strokeOpacity : ℚ
  thresholds : ℕ
deriving DecidableEq, Repr

/-- One entry of the `marks` array handed to `Plot.plot`. -/
inductive Mark where
  | frame : Mark
  | density (data : List SessionData) (opts : DensityOptions) : Mark
  | pointDot (data : List SessionData) (fill stroke : String)
      (strokeOpacity fillOpacity r : ℚ) : Mark
  | textEmotions (entries : List Emotion) : Mark
  | dotEmotions (entries : List Emotion) : Mark
deriving DecidableEq, Repr

/-- The `marks` array literal of the source, position by position; the
conditional entry `displayPoints ? Plot.dot(...) : null` is the `Option`
at index 3. -/
def marksArray (localData globalData : List SessionData) (s : ChartState) :
    List (Option Mark) :=
  [some Mark.frame,
   some (Mark.density globalData
     ⟨some 0.2, s.bandwidth, none, none, none, some "density",
      s.opacity - s.skew, 100⟩),
   some (Mark.density localData
     ⟨none, s.bandwidth, some 1, some "density", some (s.opacity + s.skew),
      some "density", s.opacity + s.skew, 100⟩),
   if s.displayPoints then
     some (Mark.pointDot localData "white" "white" 0.5 0.2 1.5)
   else none,
   some (Mark.textEmotions emotions),
   some (Mark.dotEmotions emotions)]

/-- The effective layer sequence: the plotting library skips `null`
marks, so composition is the `marks` array with the `none` dropped. -/
def compose (localData globalData : List SessionData) (s : ChartState) :
    List Mark :=
  (marksArray localData globalData s).reduceOption

/-- A data point with both coordinates in `[0,1)` — the domain on which
grid indices are guaranteed in range. -/
def inDomain (d : SessionData) : Prop :=
  0 ≤ d.x ∧ d.x < 1 ∧ 0 ≤ d.y ∧ d.y < 1

instance (d : SessionData) : Decidable (inDomain d) := by
  unfold inDomain
  infer_instance

/-- A well-formed occupancy grid: 100 rows of 100 cells. -/
def wellFormed (g : List (List ℕ)) : Prop :=
  g.length = 100 ∧ ∀ row ∈ g, row.length = 100

instance (g : List (List ℕ)) : Decidable (wellFormed g) := by
  unfold wellFormed
  infer_instance

/-- Total count held by a grid: sum of all cells. -/
def gridSum (g : List (List ℕ)) : ℕ :=
  (g.map List.sum).sum

/-! ### Infrastructure for reasoning about grid updates -/

/-- Total accessor for row `i` (defaulting to `[]` out of range). -/
def rowAt (g : List (List ℕ)) (i : ℕ) : List ℕ := g[i]?.getD []

/-- Total accessor for cell `(i, j)` (defaulting to `0` out of range). -/
def cellAt (g : List (List ℕ)) (i j : ℕ) : ℕ := (rowAt g i)[j]?.getD 0

/-- The bounds condition under which `grid[r][c] += 1` hits an existing
cell of the array-of-arrays. -/
def canInc (g : List (List ℕ)) (r c : ℤ) : Prop :=
  0 ≤ r ∧ 0 ≤ c ∧ r.toNat < g.length ∧ c.toNat < (rowAt g r.toNat).length

instance (g : List (List ℕ)) (r c : ℤ) : Decidable (canInc g r c) := by
  unfold canInc
  infer_instance

/-- The in-bounds update `grid[a][b] += 1`, at natural indices. -/
def bump (g : List (List ℕ)) (a b : ℕ) : List (List ℕ) :=
  g.set a ((rowAt g a).set b (cellAt g a b + 1))

lemma incGrid_eq (g : List (List ℕ)) (r c : ℤ) :
    incGrid g r c =
      if canInc g r c then some (bump g r.toNat c.toNat) else none := by
  unfold incGrid
  by_cases hr : 0 ≤ r
  · rw [if_pos hr]
    cases hrow : g[r.toNat]? with
    | none =>
      have hlen : g.length ≤ r.toNat := List.getElem?_eq_none_iff.mp hrow
      rw [if_neg]
      intro hcan
      exact absurd hcan.2.2.1 (by omega)
    | some row =>
      have hlen : r.toNat < g.length := (List.getElem?_eq_some_iff.mp hrow).1
      have hrowAt : rowAt g r.toNat = row := by
        unfold rowAt
        rw [hrow]
        rfl
      dsimp only
      by_cases hc : 0 ≤ c
      · rw [if_pos hc]
        cases hcell : row[c.toNat]? with
        | none =>
          have hclen : row.length ≤ c.toNat := List.getElem?_eq_none_iff.mp hcell
          rw [if_neg]
          intro hcan
          have := hcan.2.2.2
          rw [hrowAt] at this
          omega
        | some v =>
          have hclen : c.toNat < row.length := (List.getElem?_eq_some_iff.mp hcell).1
          have hcell' : cellAt g r.toNat c.toNat = v := by
            unfold cellAt
            rw [hrowAt, hcell]
            rfl
          rw [if_pos ⟨hr, hc, hlen, by rw [hrowAt]; exact hclen⟩]
          unfold bump
          rw [hrowAt, hcell']
      · rw [if_neg hc, if_neg (fun hcan => hc hcan.2.1)]
  · rw [if_neg hr, if_neg (fun hcan => hr hcan.1)]

lemma length_bump (g : List (List ℕ)) (a b : ℕ) :
    (bump g a b).length = g.length := by
  unfold bump
  exact List.length_set ..

lemma rowAt_bump_ne (g : List (List ℕ)) (a b i : ℕ) (h : a ≠ i) :
    rowAt (bump g a b) i = rowAt g i := by
  unfold bump rowAt
  rw [List.getElem?_set_ne h]

lemma rowAt_bump_self (g : List (List ℕ)) (a b : ℕ) (h : a < g.length) :
    rowAt (bump g a b) a = (rowAt g a).set b (cellAt g a b + 1) := by
  unfold bump rowAt
  rw [List.getElem?_set_self h]
  rfl

lemma rowAt_length_bump (g : List (List ℕ)) (a b i : ℕ) :
    (rowAt (bump g a b) i).length = (rowAt g i).length := by
  by_cases h : a = i
  · subst h
    by_cases hl : a < g.length
    · rw [rowAt_bump_self g a b hl]
      exact List.length_set ..
    · unfold bump
      rw [List.set_eq_of_length_le (by omega)]
  · rw [rowAt_bump_ne g a b i h]

lemma cellAt_bump_ne_row (g : List (List ℕ)) (a b i j : ℕ) (h : a ≠ i) :
    cellAt (bump g a b) i j = cellAt g i j := by
  unfold cellAt
  rw [rowAt_bump_ne g a b i h]

lemma canInc_bump (g : List (List ℕ)) (a b : ℕ) (r c : ℤ) :
    canInc (bump g a b) r c ↔ canInc g r c := by
  unfold canInc
  rw [length_bump, rowAt_length_bump]

lemma bump_bump_ne_row (g : List (List ℕ)) (a₁ b₁ a₂ b₂ : ℕ) (ha : a₁ ≠ a₂) :
    bump (bump g a₁ b₁) a₂ b₂ =
      (g.set a₁ ((rowAt g a₁).set b₁ (cellAt g a₁ b₁ + 1))).set a₂
        ((rowAt g a₂).set b₂ (cellAt g a₂ b₂ + 1)) := by
  conv_lhs => rw [bump]
  rw [rowAt_bump_ne g a₁ b₁ a₂ ha, cellAt_bump_ne_row g a₁ b₁ a₂ b₂ ha]
  rfl

lemma bump_bump_same_row (g : List (List ℕ)) (a b₁ b₂ : ℕ) (ha : a < g.length)
    (hb : b₁ ≠ b₂) :
    bump (bump g a b₁) a b₂ =
      g.set a (((rowAt g a).set b₁ (cellAt g a b₁ + 1)).set b₂
        (cellAt g a b₂ + 1)) := by
  conv_lhs => rw [bump]
  rw [rowAt_bump_self g a b₁ ha]
  have hcell : cellAt (bump g a b₁) a b₂ = cellAt g a b₂ := by
    unfold cellAt
    rw [rowAt_bump_self g a b₁ ha, List.getElem?_set_ne hb]
  rw [hcell]
  unfold bump
  rw [List.set_set]

lemma bump_comm (g : List (List ℕ)) (a₁ b₁ a₂ b₂ : ℕ)
    (h₁ : a₁ < g.length ∧ b₁ < (rowAt g a₁).length)
    (h₂ : a₂ < g.length ∧ b₂ < (rowAt g a₂).length) :
    bump (bump g a₁ b₁) a₂ b₂ = bump (bump g a₂ b₂) a₁ b₁ := by
  by_cases ha : a₁ = a₂
  · subst ha
    by_cases hb : b₁ = b₂
    · subst hb
      rfl
    · rw [bump_bump_same_row g a₁ b₁ b₂ h₁.1 hb,
        bump_bump_same_row g a₁ b₂ b₁ h₁.1 (Ne.symm hb)]
      exact congrArg _ (List.set_comm _ _ _ hb)
  · rw [bump_bump_ne_row g a₁ b₁ a₂ b₂ ha,
      bump_bump_ne_row g a₂ b₂ a₁ b₁ (Ne.symm ha)]
    exact List.set_comm _ _ _ ha

lemma gridStep_none (d : SessionData) : gridStep none d = none := rfl

lemma gridStep_comm (acc : Option (List (List ℕ))) (d₁ d₂ : SessionData) :
    gridStep (gridStep acc d₁) d₂ = gridStep (gridStep acc d₂) d₁ := by
  cases acc with
  | none => rfl
  | some g =>
    show gridStep (incGrid g (yIndex d₁) (xIndex d₁)) d₂
        = gridStep (incGrid g (yIndex d₂) (xIndex d₂)) d₁
    rw [incGrid_eq g (yIndex d₁) (xIndex d₁), incGrid_eq g (yIndex d₂) (xIndex d₂)]
    by_cases h₁ : canInc g (yIndex d₁) (xIndex d₁) <;>
      by_cases h₂ : canInc g (yIndex d₂) (xIndex d₂)
    · rw [if_pos h₁, if_pos h₂]
      show incGrid (bump g _ _) (yIndex d₂) (xIndex d₂)
          = incGrid (bump g _ _) (yIndex d₁) (xIndex d₁)
      rw [incGrid_eq, incGrid_eq,
        if_pos ((canInc_bump ..).mpr h₂), if_pos ((canInc_bump ..).mpr h₁)]
      exact congrArg some
        (bump_comm g _ _ _ _ ⟨h₁.2.2.1, h₁.2.2.2⟩ ⟨h₂.2.2.1, h₂.2.2.2⟩)
    · rw [if_pos h₁, if_neg h₂]
      show incGrid (bump g _ _) (yIndex d₂) (xIndex d₂) = none
      rw [incGrid_eq, if_neg (fun hc => h₂ ((canInc_bump ..).mp hc))]
    · rw [if_neg h₁, if_pos h₂]
      show none = incGrid (bump g _ _) (yIndex d₁) (xIndex d₁)
      rw [incGrid_eq, if_neg (fun hc => h₁ ((canInc_bump ..).mp hc))]
    · rw [if_neg h₁, if_neg h₂]
      rfl

lemma sum_set_getD_add (l : List ℕ) : ∀ (n : ℕ), n < l.length → ∀ (k : ℕ),
    (l.set n (l[n]?.getD 0 + k)).sum = l.sum + k := by
  induction l with
  | nil => intro n h; simp at h
  | cons x xs ih =>
    intro n h k
    cases n with
    | zero =>
      simp only [List.getElem?_cons_zero, Option.getD_some, List.set_cons_zero,
        List.sum_cons]
      omega
    | succ m =>
      simp only [List.getElem?_cons_succ, List.set_cons_succ, List.sum_cons]
      rw [ih m (by simpa using h) k]
      omega

lemma rowAt_mem (g : List (List ℕ)) (a : ℕ) (ha : a < g.length) :
    rowAt g a ∈ g := by
  unfold rowAt
  rw [List.getElem?_eq_getElem ha]
  simp only [Option.getD_some]
  exact List.getElem_mem ha

lemma wellFormed_bump (g : List (List ℕ)) (a b : ℕ) (ha : a < g.length)
    (hg : wellFormed g) : wellFormed (bump g a b) := by
  obtain ⟨hlen, hrows⟩ := hg
  refine ⟨by rw [length_bump, hlen], ?_⟩
  intro row hrow
  unfold bump at hrow
  rcases List.mem_or_eq_of_mem_set hrow with h | h
  · exact hrows row h
  · subst h
    rw [List.length_set]
    exact hrows _ (rowAt_mem g a ha)

lemma gridSum_bump (g : List (List ℕ)) (a b : ℕ) (ha : a < g.length)
    (hb : b < (rowAt g a).length) : gridSum (bump g a b) = gridSum g + 1 := by
  unfold gridSum bump
  rw [List.map_set]
  have hrow : ((rowAt g a).set b (cellAt g a b + 1)).sum = (rowAt g a).sum + 1 :=
    sum_set_getD_add (rowAt g a) b hb 1
  rw [hrow]
  have hmap : (g.map List.sum)[a]? = some ((rowAt g a).sum) := by
    rw [List.getElem?_map]
    unfold rowAt
    rw [List.getElem?_eq_getElem ha]
    rfl
  have h2 := sum_set_getD_add (g.map List.sum) a (by simpa using ha) 1
  rw [hmap] at h2
  simpa using h2

lemma wellFormed_emptyGrid : wellFormed emptyGrid := by
  refine ⟨by simp [emptyGrid], ?_⟩
  intro row hrow
  rw [List.eq_of_mem_replicate hrow]
  simp

lemma gridSum_emptyGrid : gridSum emptyGrid = 0 := by
  simp [gridSum, emptyGrid, List.map_replicate, List.sum_replicate]

lemma index_bounds (d : SessionData) (hd : inDomain d) :
    0 ≤ xIndex d ∧ xIndex d < 100 ∧ 0 ≤ yIndex d ∧ yIndex d < 100 := by
  obtain ⟨hx0, hx1, hy0, hy1⟩ := hd
  refine ⟨Int.floor_nonneg.mpr (mul_nonneg hx0 (by norm_num)), ?_,
    Int.floor_nonneg.mpr (mul_nonneg hy0 (by norm_num)), ?_⟩
  · unfold xIndex
    rw [Int.floor_lt]
    push_cast
    linarith
  · unfold yIndex
    rw [Int.floor_lt]
    push_cast
    linarith

lemma canInc_of_inDomain (g : List (List ℕ)) (hg : wellFormed g)
    (d : SessionData) (hd : inDomain d) : canInc g (yIndex d) (xIndex d) := by
  obtain ⟨hx0, hx100, hy0, hy100⟩ := index_bounds d hd
  have hr : (yIndex d).toNat < g.length := by rw [hg.1]; omega
  refine ⟨hy0, hx0, hr, ?_⟩
  rw [hg.2 _ (rowAt_mem g _ hr)]
  omega

lemma foldl_gridStep_spec (data : List SessionData) :
    ∀ (g : List (List ℕ)), wellFormed g → (∀ d ∈ data, inDomain d) →
    ∃ g', data.foldl gridStep (some g) = some g' ∧ wellFormed g' ∧
      gridSum g' = gridSum g + data.length := by
  induction data with
  | nil =>
    intro g hg _
    exact ⟨g, rfl, hg, by simp⟩
  | cons d tl ih =>
    intro g hg hdom
    have hcan := canInc_of_inDomain g hg d (hdom d (List.mem_cons_self d tl))
    have hstep : gridStep (some g) d
        = some (bump g (yIndex d).toNat (xIndex d).toNat) := by
      show incGrid g (yIndex d) (xIndex d) = _
      rw [incGrid_eq, if_pos hcan]
    have hwfb := wellFormed_bump g (yIndex d).toNat (xIndex d).toNat
      hcan.2.2.1 hg
    obtain ⟨g', hfold, hwf', hsum⟩ :=
      ih (bump g (yIndex d).toNat (xIndex d).toNat) hwfb
        (fun x hx => hdom x (List.mem_cons_of_mem d hx))
    refine ⟨g', ?_, hwf', ?_⟩
    · rw [List.foldl_cons, hstep]
      exact hfold
    · rw [hsum, gridSum_bump g _ _ hcan.2.2.1 hcan.2.2.2, List.length_cons]
      omega

lemma foldl_append_eq (L : List (List ℕ)) : ∀ (acc : List ℕ),
    L.foldl (fun acc row => acc ++ row) acc = acc ++ L.flatten := by
  induction L with
  | nil =>
    intro acc
    simp
  | cons r t ih =>
    intro acc
    rw [List.foldl_cons, ih, List.flatten_cons, List.append_assoc]

lemma flattenGrid_eq_flatten (g : List (List ℕ)) : flattenGrid g = g.flatten := by
  unfold flattenGrid
  rw [foldl_append_eq]
  simp

lemma flattenGrid_length (g : List (List ℕ)) (hg : wellFormed g) :
    (flattenGrid g).length = 100 * 100 := by
  rw [flattenGrid_eq_flatten, List.length_flatten]
  have hmap : g.map List.length = List.replicate 100 100 := by
    have h1 : ∀ x ∈ g.map List.length, x = 100 := by
      intro x hx
      obtain ⟨row, hrow, rfl⟩ := List.mem_map.mp hx
      exact hg.2 row hrow
    rw [List.eq_replicate_of_mem h1, List.length_map, hg.1]
  rw [hmap, List.sum_replicate, smul_eq_mul]

lemma flattenGrid_sum (g : List (List ℕ)) : (flattenGrid g).sum = gridSum g := by
  rw [flattenGrid_eq_flatten]
  exact List.sum_flatten

lemma flattenGrid_emptyGrid :
    flattenGrid emptyGrid = List.replicate (100 * 100) 0 := by
  rw [flattenGrid_eq_flatten]
  unfold emptyGrid
  exact List.flatten_replicate_replicate

lemma reshape_flatten (R : ℕ) (hR : 0 < R) :
    ∀ (g : List (List ℕ)), (∀ row ∈ g, row.length = R) →
      reshape R g.flatten = g := by
  intro g
  induction g with
  | nil =>
    intro _
    rw [List.flatten_nil, reshape]
    simp
  | cons row rest ih =>
    intro hrows
    have hrow : row.length = R := hrows row (List.mem_cons_self row rest)
    have hne : row ++ rest.flatten ≠ [] := by
      intro hcontra
      have : row = [] := (List.append_eq_nil.mp hcontra).1
      rw [this] at hrow
      simp at hrow
      omega
    rw [List.flatten_cons, reshape,
      dif_neg (by push_neg; exact ⟨by omega, hne⟩),
      List.take_left' hrow, List.drop_left' hrow,
      ih (fun r hr => hrows r (List.mem_cons_of_mem row hr))]

/-! ### Concrete evaluations at the `[0,1]` boundary -/

lemma xIndex_one (y : ℚ) (sc : Scope) : xIndex ⟨1, y, sc⟩ = 100 := by
  unfold xIndex
  rw [show ((1 : ℚ) * 100) = ((100 : ℤ) : ℚ) by norm_num, Int.floor_intCast]

lemma yIndex_zero (x : ℚ) (sc : Scope) : yIndex ⟨x, 0, sc⟩ = 0 := by
  unfold yIndex
  rw [show ((0 : ℚ) * 100) = ((0 : ℤ) : ℚ) by norm_num, Int.floor_intCast]

lemma yIndex_one (x : ℚ) (sc : Scope) : yIndex ⟨x, 1, sc⟩ = 100 := by
  unfold yIndex
  rw [show ((1 : ℚ) * 100) = ((100 : ℤ) : ℚ) by norm_num, Int.floor_intCast]

lemma xIndex_zero (y : ℚ) (sc : Scope) : xIndex ⟨0, y, sc⟩ = 0 := by
  unfold xIndex
  rw [show ((0 : ℚ) * 100) = ((0 : ℤ) : ℚ) by norm_num, Int.floor_intCast]

lemma rowAt_emptyGrid (i : ℕ) (h : i < 100) :
    rowAt emptyGrid i = List.replicate 100 0 := by
  unfold rowAt emptyGrid
  rw [List.getElem?_replicate, if_pos h]
  rfl

lemma getGrid_single_eq (d : SessionData) :
    getGrid [d] = incGrid emptyGrid (yIndex d) (xIndex d) := rfl

lemma getGrid_boundary_x : getGrid [⟨1, 0, Scope.LOCAL⟩] = none := by
  rw [getGrid_single_eq, yIndex_zero, xIndex_one, incGrid_eq, if_neg]
  intro hcan
  have h4 := hcan.2.2.2
  have h0 : (0 : ℤ).toNat = 0 := rfl
  rw [h0, rowAt_emptyGrid 0 (by norm_num)] at h4
  simp only [List.length_replicate] at h4
  omega

lemma getGrid_boundary_y : getGrid [⟨0, 1, Scope.LOCAL⟩] = none := by
  rw [getGrid_single_eq, yIndex_one, xIndex_zero, incGrid_eq, if_neg]
  intro hcan
  have h3 := hcan.2.2.1
  simp only [emptyGrid, List.length_replicate] at h3
  omega

lemma emptyGrid_zeros : ∀ row ∈ emptyGrid, ∀ v ∈ row, v = 0 := by
  intro row hrow v hv
  rw [List.eq_of_mem_replicate hrow] at hv
  exact List.eq_of_mem_replicate hv

/-! ### Claim theorems -/

/-- C1: for every sequence of sample points whose coordinates all lie in
`[0,1)`, `getGrid` builds a 100×100 grid of counts (`ℕ`-valued, hence
non-negative) whose cells sum to the length of the input, and the empty
sequence yields the all-zero grid. -/
theorem getGrid_sum_eq_length (data : List SessionData)
    (hdom : ∀ d ∈ data, inDomain d) :
    ∃ g, getGrid data = some g ∧ g.length = 100 ∧
      (∀ row ∈ g, row.length = 100) ∧ gridSum g = data.length ∧
      (data = [] → g = emptyGrid ∧ ∀ row ∈ g, ∀ v ∈ row, v = 0) := by
  obtain ⟨g, hf, hwf, hsum⟩ :=
    foldl_gridStep_spec data emptyGrid wellFormed_emptyGrid hdom
  refine ⟨g, hf, hwf.1, hwf.2, ?_, ?_⟩
  · rw [hsum, gridSum_emptyGrid]
    omega
  · rintro rfl
    have hg : emptyGrid = g := by simpa using hf
    rw [← hg]
    exact ⟨rfl, emptyGrid_zeros⟩

/-- C1 witness: a concrete in-domain two-point input. -/
theorem getGrid_sum_eq_length_witness :
    (∀ d ∈ ([⟨0, 0, Scope.LOCAL⟩, ⟨0.5, 0.25, Scope.LOCAL⟩] :
        List SessionData), inDomain d) ∧
    ∃ g, getGrid [⟨0, 0, Scope.LOCAL⟩, ⟨0.5, 0.25, Scope.LOCAL⟩] = some g ∧
      g.length = 100 ∧ (∀ row ∈ g, row.length = 100) ∧
      gridSum g = ([⟨0, 0, Scope.LOCAL⟩, ⟨0.5, 0.25, Scope.LOCAL⟩] :
        List SessionData).length ∧
      (([⟨0, 0, Scope.LOCAL⟩, ⟨0.5, 0.25, Scope.LOCAL⟩] :
        List SessionData) = [] → g = emptyGrid ∧
          ∀ row ∈ g, ∀ v ∈ row, v = 0) := by
  have h : ∀ d ∈ ([⟨0, 0, Scope.LOCAL⟩, ⟨0.5, 0.25, Scope.LOCAL⟩] :
      List SessionData), inDomain d := by
    intro d hd
    rcases List.mem_cons.mp hd with rfl | hd
    · exact ⟨le_refl 0, by norm_num, le_refl 0, by norm_num⟩
    rcases List.mem_cons.mp hd with rfl | hd
    · exact ⟨by norm_num, by norm_num, by norm_num, by norm_num⟩
    · simp at hd
  exact ⟨h, getGrid_sum_eq_length _ h⟩

/-- C4: contrary to the claim, the coordinate boundary is not handled:
the point with x = 1.0 (y = 0) yields column index
`floor(1.0 * 100) = 100`, outside the valid range `[0,99]`, and the
unguarded access `grid[0][100]` makes grid construction fail (the
embedding yields `none`; in JS the write lands past the end of the
row). -/
theorem boundary_not_handled :
    xIndex ⟨1, 0, Scope.LOCAL⟩ = 100 ∧
    ¬ (0 ≤ xIndex ⟨1, 0, Scope.LOCAL⟩ ∧ xIndex ⟨1, 0, Scope.LOCAL⟩ ≤ 99) ∧
    getGrid [⟨1, 0, Scope.LOCAL⟩] = none := by
  refine ⟨xIndex_one 0 Scope.LOCAL, ?_, getGrid_boundary_x⟩
  rw [xIndex_one 0 Scope.LOCAL]
  omega

/-- C5 counterexample: for the boundary input y = 1.0 the claim fails —
no 10000-element flattening is produced, because the unguarded access
`grid[100][0]` fails (in JS, `grid[100]` is `undefined` and the update
throws). -/
theorem flatten_length_fails_at_boundary :
    ¬ ∃ g, getGrid [⟨0, 1, Scope.LOCAL⟩] = some g ∧
      (flattenGrid g).length = 100 * 100 := by
  rintro ⟨g, hg, -⟩
  rw [getGrid_boundary_y] at hg
  exact Option.noConfusion hg

/-- C5 amended: for every input sequence whose coordinates lie in
`[0,1)` (the empty sequence included), the grid is built and its
row-major flattening has length exactly `100 * 100 = 10000`, all zeros
for the empty input. -/
theorem flattenGrid_getGrid_length (data : List SessionData)
    (hdom : ∀ d ∈ data, inDomain d) :
    ∃ g, getGrid data = some g ∧ flattenGrid g = g.flatten ∧
      (flattenGrid g).length = 100 * 100 ∧
      (data = [] → flattenGrid g = List.replicate (100 * 100) 0) := by
  obtain ⟨g, hf, hwf, _⟩ :=
    foldl_gridStep_spec data emptyGrid wellFormed_emptyGrid hdom
  refine ⟨g, hf, flattenGrid_eq_flatten g, flattenGrid_length g hwf, ?_⟩
  rintro rfl
  have hg : emptyGrid = g := by simpa using hf
  rw [← hg, flattenGrid_emptyGrid]

/-- C5 witness: a concrete in-domain one-point input. -/
theorem flattenGrid_getGrid_length_witness :
    (∀ d ∈ ([⟨0.25, 0.75, Scope.GLOBAL⟩] : List SessionData), inDomain d) ∧
    ∃ g, getGrid [⟨0.25, 0.75, Scope.GLOBAL⟩] = some g ∧
      flattenGrid g = g.flatten ∧ (flattenGrid g).length = 100 * 100 ∧
      (([⟨0.25, 0.75, Scope.GLOBAL⟩] : List SessionData) = [] →
        flattenGrid g = List.replicate (100 * 100) 0) := by
  have h : ∀ d ∈ ([⟨0.25, 0.75, Scope.GLOBAL⟩] : List SessionData),
      inDomain d := by
    intro d hd
    rcases List.mem_cons.mp hd with rfl | hd
    · exact ⟨by norm_num, by norm_num, by norm_num, by norm_num⟩
    · simp at hd
  exact ⟨h, flattenGrid_getGrid_length _ h⟩

/-- C6: flatten-then-reshape round trip — for every `R × R` grid
(rows of length `R`, `R > 0`), reassembling the row-major flattening
into rows of length `R` reconstructs the grid exactly. -/
theorem flatten_reshape_roundtrip (R : ℕ) (g : List (List ℕ)) (hR : 0 < R)
    (hlen : g.length = R) (hrows : ∀ row ∈ g, row.length = R) :
    reshape R (flattenGrid g) = g := by
  rw [flattenGrid_eq_flatten]
  exact reshape_flatten R hR g hrows

/-- C6 witness: the 1×1 grid `[[5]]`. -/
theorem flatten_reshape_roundtrip_witness :
    (0 < 1 ∧ ([[5]] : List (List ℕ)).length = 1 ∧
      ∀ row ∈ ([[5]] : List (List ℕ)), row.length = 1) ∧
    reshape 1 (flattenGrid [[5]]) = [[5]] :=
  ⟨⟨Nat.one_pos, rfl, by decide⟩,
    flatten_reshape_roundtrip 1 [[5]] Nat.one_pos rfl (by decide)⟩

/-- C7: `getGrid` is invariant under any permutation of its input — the
result depends only on the multiset of points (counting commutes). -/
theorem getGrid_perm_invariant (l₁ l₂ : List SessionData) (h : l₁.Perm l₂) :
    getGrid l₁ = getGrid l₂ :=
  @List.Perm.foldl_eq _ _ gridStep l₁ l₂ ⟨gridStep_comm⟩ h (some emptyGrid)

/-- C7 witness: a concrete transposition of a two-point input. -/
theorem getGrid_perm_invariant_witness :
    getGrid [⟨0, 0, Scope.LOCAL⟩, ⟨0.5, 0.5, Scope.GLOBAL⟩] =
      getGrid [⟨0.5, 0.5, Scope.GLOBAL⟩, ⟨0, 0, Scope.LOCAL⟩] :=
  getGrid_perm_invariant _ _
    (List.Perm.swap (⟨0.5, 0.5, Scope.GLOBAL⟩ : SessionData)
      (⟨0, 0, Scope.LOCAL⟩ : SessionData) [])

/-- C10: flattening preserves the total count — the sum of the flattened
sequence equals the sum of all grid cells, for every grid; combined with
grid construction, the flattening of `getGrid` sums to the number of
binned points. -/
theorem flatten_preserves_sum :
    (∀ grid : List (List ℕ), (flattenGrid grid).sum = gridSum grid) ∧
    ∀ data : List SessionData, (∀ d ∈ data, inDomain d) →
      ∃ g, getGrid data = some g ∧ (flattenGrid g).sum = data.length := by
  refine ⟨flattenGrid_sum, ?_⟩
  intro data hdom
  obtain ⟨g, hf, _, hsum⟩ :=
    foldl_gridStep_spec data emptyGrid wellFormed_emptyGrid hdom
  refine ⟨g, hf, ?_⟩
  rw [flattenGrid_sum, hsum, gridSum_emptyGrid]
  omega

/-- C10 witness: a concrete grid and a concrete in-domain input. -/
theorem flatten_preserves_sum_witness :
    ((flattenGrid [[1, 2], [3]]).sum = gridSum [[1, 2], [3]]) ∧
    ((∀ d ∈ ([⟨0.75, 0.25, Scope.LOCAL⟩] : List SessionData), inDomain d) ∧
      ∃ g, getGrid [⟨0.75, 0.25, Scope.LOCAL⟩] = some g ∧
        (flattenGrid g).sum = 1) := by
  have h : ∀ d ∈ ([⟨0.75, 0.25, Scope.LOCAL⟩] : List SessionData),
      inDomain d := by
    intro d hd
    rcases List.mem_cons.mp hd with rfl | hd
    · exact ⟨by norm_num, by norm_num, by norm_num, by norm_num⟩
    · simp at hd
  exact ⟨flatten_preserves_sum.1 [[1, 2], [3]],
    h, flatten_preserves_sum.2 _ h⟩

/-- C2: for every pair of datasets and every parameter state, the layer
sequence has the global-density layer at position 1 (weight fixed 0.2,
bandwidth from the state, strokeOpacity = opacity - skew, 100
thresholds) and the local-density layer at position 2 (fillOpacity =
strokeOpacity = opacity + skew, same bandwidth and thresholds); with
opacity 0.9 and skew 0.5 this gives 0.4 and 1.4, and 1.4 is not
re-clamped into `[0,1]` at composition. -/
theorem compose_density_layers (ld gd : List SessionData) (s : ChartState) :
    ((compose ld gd s)[1]? = some (Mark.density gd
      ⟨some 0.2, s.bandwidth, none, none, none, some "density",
       s.opacity - s.skew, 100⟩) ∧
    (compose ld gd s)[2]? = some (Mark.density ld
      ⟨none, s.bandwidth, some 1, some "density", some (s.opacity + s.skew),
       some "density", s.opacity + s.skew, 100⟩)) ∧
    ((compose ld gd ⟨s.displayPoints, 0.9, s.bandwidth, 0.5⟩)[1]? =
      some (Mark.density gd
        ⟨some 0.2, s.bandwidth, none, none, none, some "density",
         0.4, 100⟩) ∧
    (compose ld gd ⟨s.displayPoints, 0.9, s.bandwidth, 0.5⟩)[2]? =
      some (Mark.density ld
        ⟨none, s.bandwidth, some 1, some "density", some 1.4,
         some "density", 1.4, 100⟩) ∧
    ¬ ((1.4 : ℚ) ≤ 1)) := by
  refine ⟨⟨?_, ?_⟩, ?_, ?_, by norm_num⟩ <;>
    simp [compose, marksArray, List.reduceOption_cons_of_some] <;>
    norm_num

/-- C8: the point-overlay mark (over the local dataset, radius 1.5,
strokeOpacity 0.5, fillOpacity 0.2) is in the composed layer sequence
iff `displayPoints` is set, and toggling it only inserts or removes that
one mark at position 3, leaving every other layer unchanged. -/
theorem point_overlay_iff (ld gd : List SessionData) (s : ChartState) :
    (Mark.pointDot ld "white" "white" 0.5 0.2 1.5 ∈ compose ld gd s
      ↔ s.displayPoints = true) ∧
    compose ld gd ⟨true, s.opacity, s.bandwidth, s.skew⟩ =
      (compose ld gd ⟨false, s.opacity, s.bandwidth, s.skew⟩).take 3 ++
        Mark.pointDot ld "white" "white" 0.5 0.2 1.5 ::
        (compose ld gd ⟨false, s.opacity, s.bandwidth, s.skew⟩).drop 3 := by
  constructor
  · cases hdp : s.displayPoints <;>
      simp [compose, marksArray, hdp]
  · simp [compose, marksArray]

/-- C3 counterexample: the claim fails on the stored state — the initial
opacity is 5, outside its declared range `[0,1]`, and the opacity setter
stores the out-of-range input 7 unchanged instead of clamping it to the
nearest bound 1. -/
theorem params_not_clamped :
    initialState.opacity = 5 ∧ ¬ (initialState.opacity ≤ 1) ∧
    (handleOpacityChange 7 initialState).opacity = 7 ∧
    ¬ ((handleOpacityChange 7 initialState).opacity ≤ 1) := by
  refine ⟨rfl, ?_, rfl, ?_⟩ <;>
    norm_num [initialState, handleOpacityChange]

/-- C3 amended: the setters store their input unchanged — no clamping
happens at the edit boundary (range enforcement is left to the slider
controls); the initial bandwidth (20 ∈ [10,80]), skew (0 ∈ [-1,1]) and
showPoints (false) defaults are within their declared ranges, but the
initial opacity is 5, outside `[0,1]`. -/
theorem params_stored_raw :
    (∀ (v : ℚ) (s : ChartState), (handleOpacityChange v s).opacity = v) ∧
    (∀ (v : ℚ) (s : ChartState), (handleBandwidthChange v s).bandwidth = v) ∧
    (∀ (v : ℚ) (s : ChartState), (handleSkewChange v s).skew = v) ∧
    initialState.displayPoints = false ∧
    initialState.opacity = 5 ∧
    ¬ (0 ≤ initialState.opacity ∧ initialState.opacity ≤ 1) ∧
    (10 ≤ initialState.bandwidth ∧ initialState.bandwidth ≤ 80) ∧
    (-1 ≤ initialState.skew ∧ initialState.skew ≤ 1) := by
  refine ⟨fun v s => rfl, fun v s => rfl, fun v s => rfl, rfl, rfl,
    ?_, ?_, ?_⟩ <;>
    norm_num [initialState]

/-- C9: all 9 entries of the static emotion catalog carry an RGB color
triple, so the color derivation of the annotation dot layer (`toRgb`
of the entry color, behind a non-null assertion) is well-defined for every
entry; the optional hsl field is never needed for it. -/
theorem emotions_color_defined :
    emotions.length = 9 ∧ ∀ e ∈ emotions, (emotionFill e).isSome = true := by
  refine ⟨rfl, ?_⟩
  decide

end HeatmapChart
